import Mathlib

/-!
Verification of the gin-contrib/gzip middleware against its specification.

The development shallow-embeds the middleware's response-side state machine
(`gzipWriter` from gzip.go together with `gzipHandler.Handle` from handler.go)
and its request-side decoder (`DefaultDecompressHandle` from the options file).
The repository files carry several revisions of the middleware; the embedding
follows the leading revision of each file: the status-tracking `gzipWriter`
with `setCompressionHeaders`/`removeGzipHeaders` from gzip.go, the pooled
`Handle` with its deferred finalization from handler.go, and the chained
multi-token `DefaultDecompressHandle` from the options file.
HTTP header maps are embedded as functions from canonical key strings to value
lists, mirroring Go's `net/http.Header` operations `Get`/`Set`/`Add`/`Del`.
The external `compress/gzip` codec, which the middleware only ever treats as an
opaque streaming compressor (apart from the two magic bytes `0x1f 0x8b`), is
modelled as a concrete invertible container: a 10-byte header beginning with
the magic bytes, a length-prefixed payload standing in for the deflate stream,
and an 8-byte checksum/length footer, matching the byte-level contract the
spec describes (magic bytes, deflate payload, trailing CRC32/length footer).
-/

namespace GinGzip

/-- Response/request header map, mirroring Go's `net/http.Header`:
a map from (canonical) header key to the list of values. -/
abbrev HeaderF := String → List String

/-- The empty header map. -/
def hempty : HeaderF := fun _ => []

/-- Go `Header.Set`: replace all values of `k` by the single value `v`. -/
def hset (h : HeaderF) (k v : String) : HeaderF :=
  fun j => if j = k then [v] else h j

/-- Go `Header.Add`: append `v` to the values of `k`. -/
def hadd (h : HeaderF) (k v : String) : HeaderF :=
  fun j => if j = k then h k ++ [v] else h j

/-- Go `Header.Del`: remove all values of `k`. -/
def hdel (h : HeaderF) (k : String) : HeaderF :=
  fun j => if j = k then [] else h j

/-- Go `Header.Get`: the first value of `k`, or `""` when absent. -/
def hgetS (h : HeaderF) (k : String) : String := (h k).headD ""

/-- Boolean infix test on character lists: `sub` occurs contiguously in `l`. -/
def charsInfix (sub : List Char) : List Char → Bool
  | [] => sub.isEmpty
  | c :: rest => sub.isPrefixOf (c :: rest) || charsInfix sub rest

/-- Go `strings.Contains s sub`: `sub` occurs as a substring of `s`. -/
def strContains (s sub : String) : Bool := charsInfix sub.toList s.toList

/-- Go `strings.HasPrefix s pre`. -/
def goHasPrefix (s pre : String) : Bool := pre.toList.isPrefixOf s.toList

/-- Go `strings.Split s ","`: split on every comma (never empty output). -/
def splitCommaAux : List Char → List Char → List String
  | [], acc => [String.mk acc.reverse]
  | c :: rest, acc =>
    if c = ',' then String.mk acc.reverse :: splitCommaAux rest []
    else splitCommaAux rest (c :: acc)

/-- Go `strings.Split s ","`. -/
def goSplitComma (s : String) : List String := splitCommaAux s.toList []

/-- Whitespace test used by Go `strings.TrimSpace` (ASCII whitespace). -/
def isSpaceChar (c : Char) : Bool :=
  c = ' ' || c = '\t' || c = '\n' || c = '\r'

/-- Go `strings.TrimSpace`. -/
def goTrim (s : String) : String :=
  String.mk (((s.toList.dropWhile isSpaceChar).reverse.dropWhile isSpaceChar).reverse)

/-- Go `strings.ToLower` (ASCII case folding). -/
def goToLower (s : String) : String := String.mk (s.toList.map Char.toLower)

/-- Go `path/filepath.Ext`, scanning the path right-to-left: the suffix of the
last slash-separated element starting at its final dot, else `""`.
The first argument is the reversed character list of the path. -/
def filepathExtAux : List Char → List Char → String
  | [], _ => ""
  | c :: rest, acc =>
    if c = '/' then ""
    else if c = '.' then ⟨c :: acc⟩
    else filepathExtAux rest (c :: acc)

/-- Go `path/filepath.Ext`. -/
def filepathExt (p : String) : String := filepathExtAux p.toList.reverse []

/-! ## Model of the external `compress/gzip` codec

`gzip.Writer` emits its fixed 10-byte stream header on the first `Write`
call, buffers deflate output, and on `Close` emits the remaining compressed
data followed by the 8-byte CRC32/ISIZE footer.  The deflate payload is
modelled as a length-prefixed stored block; the CRC is modelled by a simple
32-bit checksum.  What matters for the middleware is only that the container
begins with the magic bytes `0x1f 0x8b` and that decoding inverts encoding. -/

/-- Little-endian 4-byte encoding of a natural number (mod 2^32). -/
def natLE4 (n : Nat) : List Nat :=
  [n % 256, n / 256 % 256, n / 256 ^ 2 % 256, n / 256 ^ 3 % 256]

/-- Decode a little-endian 4-byte sequence. -/
def fromLE4 (a b c d : Nat) : Nat := a + 256 * (b + 256 * (c + 256 * d))

/-- The fixed 10-byte gzip stream header written by `gzip.Writer`:
magic bytes `0x1f 0x8b`, compression method 8 (deflate), zero flags/mtime/xfl,
OS byte 255 (unknown). -/
def gzHeaderBytes : List Nat := [31, 139, 8, 0, 0, 0, 0, 0, 0, 255]

/-- Model of the deflate stream: a length-prefixed stored block. -/
def deflateStored (d : List Nat) : List Nat := natLE4 d.length ++ d

/-- Model of CRC32 over the uncompressed payload: a 32-bit rolling checksum. -/
def crc32Model (d : List Nat) : Nat :=
  d.foldl (fun a b => (a * 31 + b) % 2 ^ 32) 0

/-- The 8-byte gzip footer: CRC32 then ISIZE, both little-endian. -/
def gzFooterBytes (d : List Nat) : List Nat :=
  natLE4 (crc32Model d) ++ natLE4 (d.length % 2 ^ 32)

/-- The complete gzip container `gzip.Writer` produces for payload `d`
(stream header, deflate data, footer). -/
def gzipCompress (d : List Nat) : List Nat :=
  gzHeaderBytes ++ deflateStored d ++ gzFooterBytes d

/-- Parse one gzip stream from the front of `s`, as `gzip.Reader` does:
check the stream header, read the payload, verify the footer; return the
payload and the remaining bytes. -/
def gzipDecompressPrefix (s : List Nat) : Option (List Nat × List Nat) :=
  if s.take 10 = gzHeaderBytes then
    let rest := s.drop 10
    match rest.take 4 with
    | [a, b, c, d] =>
      let n := fromLE4 a b c d
      let payload := (rest.drop 4).take n
      if payload.length = n then
        let after := (rest.drop 4).drop n
        if after.take 8 = gzFooterBytes payload then some (payload, after.drop 8)
        else none
      else none
    | _ => none
  else none

/-- Decode a byte string consisting of exactly one gzip stream. -/
def gzipDecompress (s : List Nat) : Option (List Nat) :=
  match gzipDecompressPrefix s with
  | some (p, []) => some p
  | _ => none

/-- Go's `gzip.Reader` in (default) multistream mode: reading to EOF
concatenates the payloads of all back-to-back gzip streams. -/
def gzipDecodeAllAux : Nat → List Nat → Option (List Nat)
  | _, [] => some []
  | 0, _ :: _ => none
  | fuel + 1, a :: s =>
    match gzipDecompressPrefix (a :: s) with
    | some (p, rest) => (gzipDecodeAllAux fuel rest).map (fun q => p ++ q)
    | none => none

/-- Multistream gzip decode of a whole byte string. -/
def gzipDecodeAll (s : List Nat) : Option (List Nat) :=
  gzipDecodeAllAux (s.length + 1) s

/-- The magic-byte test the middleware performs on the first body write:
`len(data) >= 2 && data[0] == 0x1f && data[1] == 0x8b`. -/
def startsWithGzipMagic (d : List Nat) : Bool :=
  match d with
  | a :: b :: _ => a = 31 && b = 139
  | _ => false

/-! ### Codec lemmas -/

theorem fromLE4_natLE4 (n : Nat) (h : n < 2 ^ 32) :
    fromLE4 (n % 256) (n / 256 % 256) (n / 256 ^ 2 % 256) (n / 256 ^ 3 % 256) = n := by
  simp only [fromLE4]
  omega

theorem gzipCompress_length (d : List Nat) :
    (gzipCompress d).length = d.length + 22 := by
  simp only [gzipCompress, gzHeaderBytes, deflateStored, gzFooterBytes, natLE4,
    List.length_append, List.length_cons, List.length_nil]
  omega

theorem startsWithGzipMagic_gzipCompress (d : List Nat) :
    startsWithGzipMagic (gzipCompress d) = true := by
  simp [gzipCompress, gzHeaderBytes, startsWithGzipMagic]

theorem gzipDecompressPrefix_gzipCompress (d rest : List Nat) (h : d.length < 2 ^ 32) :
    gzipDecompressPrefix (gzipCompress d ++ rest) = some (d, rest) := by
  have hc : gzipCompress d ++ rest =
      gzHeaderBytes ++ (natLE4 d.length ++ (d ++ (gzFooterBytes d ++ rest))) := by
    simp [gzipCompress, deflateStored]
  rw [hc]
  have h10 : gzHeaderBytes.length = 10 := by rfl
  unfold gzipDecompressPrefix
  rw [show (10 : Nat) = gzHeaderBytes.length from rfl]
  rw [List.take_left, List.drop_left]
  simp only [if_pos rfl]
  have h4 : (natLE4 d.length).length = 4 := by rfl
  rw [show (4 : Nat) = (natLE4 d.length).length from h4.symm]
  rw [List.take_left, List.drop_left]
  simp only [natLE4]
  rw [fromLE4_natLE4 d.length h]
  rw [show (d ++ (gzFooterBytes d ++ rest)).take d.length = d from by
        rw [show d.length = d.length from rfl]; exact List.take_left d _]
  simp only [if_pos rfl]
  rw [List.drop_left]
  have h8 : (gzFooterBytes d).length = 8 := by
    simp [gzFooterBytes, natLE4]
  rw [show (8 : Nat) = (gzFooterBytes d).length from h8.symm]
  rw [List.take_left, List.drop_left]
  simp

theorem gzipDecompress_gzipCompress (d : List Nat) (h : d.length < 2 ^ 32) :
    gzipDecompress (gzipCompress d) = some d := by
  have := gzipDecompressPrefix_gzipCompress d [] h
  simp only [List.append_nil] at this
  simp [gzipDecompress, this]

theorem gzipDecodeAllAux_nil (fuel : Nat) : gzipDecodeAllAux fuel [] = some [] := by
  cases fuel <;> rfl

theorem gzipDecodeAllAux_compress (fuel : Nat) (d rest : List Nat)
    (h : d.length < 2 ^ 32) :
    gzipDecodeAllAux (fuel + 1) (gzipCompress d ++ rest) =
      (gzipDecodeAllAux fuel rest).map (fun q => d ++ q) := by
  have h1 : gzipCompress d ++ rest =
      31 :: ([139, 8, 0, 0, 0, 0, 0, 0, 255] ++ (deflateStored d ++ gzFooterBytes d ++ rest)) := by
    simp [gzipCompress, gzHeaderBytes]
  rw [h1]
  show (match gzipDecompressPrefix (31 :: ([139, 8, 0, 0, 0, 0, 0, 0, 255] ++
      (deflateStored d ++ gzFooterBytes d ++ rest))) with
    | some (p, r) => (gzipDecodeAllAux fuel r).map (fun q => p ++ q)
    | none => none) = (gzipDecodeAllAux fuel rest).map (fun q => d ++ q)
  rw [← h1, gzipDecompressPrefix_gzipCompress d rest h]

theorem gzipDecodeAll_single (d : List Nat) (h : d.length < 2 ^ 32) :
    gzipDecodeAll (gzipCompress d) = some d := by
  have hl : (gzipCompress d).length + 1 = (d.length + 22) + 1 := by
    rw [gzipCompress_length]
  have := gzipDecodeAllAux_compress (d.length + 22) d [] h
  simp only [List.append_nil] at this
  rw [gzipDecodeAll, hl, this, gzipDecodeAllAux_nil]
  simp

theorem gzipDecodeAll_one_then_empty (a : List Nat) (h : a.length < 2 ^ 32) :
    gzipDecodeAll (gzipCompress a ++ gzipCompress []) = some a := by
  have hl : (gzipCompress a ++ gzipCompress []).length + 1 = (a.length + 44) + 1 := by
    simp [List.length_append, gzipCompress_length]
  rw [gzipDecodeAll, hl, gzipDecodeAllAux_compress (a.length + 44) a (gzipCompress []) h]
  have h44 : a.length + 44 = (a.length + 43) + 1 := by omega
  have hz : ([] : List Nat).length < 2 ^ 32 := by simp
  have := gzipDecodeAllAux_compress (a.length + 43) [] [] hz
  simp only [List.append_nil] at this
  rw [h44, this, gzipDecodeAllAux_nil]
  simp

/-! ## The middleware configuration and decision engine (handler.go, options) -/

/-- An inbound HTTP request: header map, URL path, optional body bytes. -/
structure Request where
  header : HeaderF
  path : String
  body : Option (List Nat)

/-- The middleware configuration built by the functional options
(`config` in the source).  Excluded path regular expressions are embedded
as abstract match predicates over the request URI, since `regexp.MatchString`
is an external collaborator.  `hasDefaultDecompress` records that
`WithDecompressFn(DefaultDecompressHandle)` was configured. -/
structure Config where
  excludedExtensions : List String
  excludedPaths : List String
  excludedPathesRegexs : List (String → Bool)
  decompressOnly : Bool
  customShouldCompressFn : Option (Request → Bool)
  hasDefaultDecompress : Bool

/-- `ExcludedExtensions.Contains`: exact membership of the path extension. -/
def excludedExtensionsContains (e : List String) (target : String) : Bool :=
  e.contains target

/-- `ExcludedPaths.Contains`: some configured path is a prefix of the URI. -/
def excludedPathsContains (e : List String) (requestURI : String) : Bool :=
  e.any fun p => goHasPrefix requestURI p

/-- `ExcludedPathesRegexs.Contains`: some configured pattern matches the URI. -/
def excludedRegexsContains (e : List (String → Bool)) (requestURI : String) : Bool :=
  e.any fun reg => reg requestURI

/-- `gzipHandler.shouldCompress` (handler.go): reject when `Accept-Encoding`
lacks the substring `gzip` or `Connection` contains `Upgrade`; then reject
when the path's extension, a path prefix, or a path regex is excluded. -/
def shouldCompress (g : Config) (req : Request) : Bool :=
  if !strContains (hgetS req.header "Accept-Encoding") "gzip"
      || strContains (hgetS req.header "Connection") "Upgrade" then
    false
  else
    let extension := filepathExt req.path
    if excludedExtensionsContains g.excludedExtensions extension
        || excludedPathsContains g.excludedPaths req.path
        || excludedRegexsContains g.excludedPathesRegexs req.path then
      false
    else
      true

/-- The early-return decision at the top of `gzipHandler.Handle`:
the middleware wraps the writer exactly when this is `true`.
Mirrors `!(g.decompressOnly || (custom != nil && !custom(c)) ||
(custom == nil && !g.shouldCompress(req)))`. -/
def handleShouldRun (g : Config) (req : Request) : Bool :=
  !(g.decompressOnly
    || (match g.customShouldCompressFn with
        | some f => !f req
        | none => false)
    || (match g.customShouldCompressFn with
        | some _ => false
        | none => !shouldCompress g req))

/-- Modelled from the spec: the compression-eligibility decision when the
`WithCombineDefaultAndCustom` option is enabled.  The option appears in the
repository's README but its implementation is not among the source files;
per spec section 4.1 step 3, in combine mode the custom predicate's negative
vote overrides, while a positive vote is still subject to the built-in
`shouldCompress` rules (extension/path/regex exclusions). -/
def combinedShouldCompress (g : Config) (f : Request → Bool) (req : Request) : Bool :=
  f req && shouldCompress g req

/-! ## The response-writer decorator (gzip.go) -/

/-- State of the underlying gin `ResponseWriter`: the shared header map,
the bytes written to the client, the recorded status (gin defaults to 200),
and whether any body write reached the underlying writer (gin's
`Size() >= 0`). -/
structure Response where
  header : HeaderF
  body : List Nat
  status : Nat
  bodyWritten : Bool

/-- State of the borrowed `gzip.Writer`: its destination (the underlying
writer, or `io.Discard` after a reset to discard), whether the 10-byte gzip
stream header was already emitted (it is emitted on the first `Write` call),
the accumulated uncompressed input, and whether the stream was closed. -/
structure GzWriter where
  destDiscard : Bool
  wroteHeader : Bool
  input : List Nat
  closed : Bool

/-- Combined per-request state: the underlying response, the pooled
compressor, and the `gzipWriter` decorator fields `statusWritten`, `status`
and `headersSet`.  `closedOnce` records that `gz.Close` ran (it survives the
final `Reset`), and `pooled` that the compressor was returned to the pool. -/
structure MState where
  resp : Response
  gz : GzWriter
  statusWritten : Bool
  wstatus : Nat
  headersSet : Bool
  closedOnce : Bool
  pooled : Bool

/-- A body write on the underlying gin writer. -/
def underlyingWrite (m : MState) (d : List Nat) : MState :=
  { m with resp := { m.resp with body := m.resp.body ++ d, bodyWritten := true } }

/-- `gzip.Writer.Write`: emit the stream header to the destination on the
first call, then accumulate the input (compressed output is buffered until
`Close`). -/
def gzWrite (m : MState) (d : List Nat) : MState :=
  let m1 :=
    if m.gz.wroteHeader then m
    else
      let m0 := if m.gz.destDiscard then m else underlyingWrite m gzHeaderBytes
      { m0 with gz := { m0.gz with wroteHeader := true } }
  { m1 with gz := { m1.gz with input := m1.gz.input ++ d } }

/-- `gzip.Writer.Close`: emit the stream header if not yet written, then the
remaining deflate data and the footer, to the current destination. -/
def gzClose (m : MState) : MState :=
  let out := (if m.gz.wroteHeader then [] else gzHeaderBytes)
      ++ deflateStored m.gz.input ++ gzFooterBytes m.gz.input
  let m1 := if m.gz.destDiscard then m else underlyingWrite m out
  { m1 with gz := { m1.gz with wroteHeader := true, closed := true },
            closedOnce := true }

/-- `gzip.Writer.Reset`: bind the compressor to a fresh destination,
dropping all stream state.  `discard` selects `io.Discard`. -/
def gzReset (m : MState) (discard : Bool) : MState :=
  { m with gz := { destDiscard := discard, wroteHeader := false,
                   input := [], closed := false } }

/-- `gzipWriter.setCompressionHeaders` (gzip.go): set
`Content-Encoding: gzip`, add `Accept-Encoding` to `Vary`, and weaken a
strong `ETag` with the `W/` prefix. -/
def setCompressionHeaders (h : HeaderF) : HeaderF :=
  let h1 := hset h "Content-Encoding" "gzip"
  let h2 := hadd h1 "Vary" "Accept-Encoding"
  let etag := hgetS h2 "ETag"
  if etag ≠ "" && !goHasPrefix etag "W/" then hset h2 "ETag" ("W/" ++ etag)
  else h2

/-- `gzipWriter.removeGzipHeaders` (gzip.go): delete `Content-Encoding`,
`Vary` and `ETag` for error responses. -/
def removeGzipHeaders (h : HeaderF) : HeaderF :=
  hdel (hdel (hdel h "Content-Encoding") "Vary") "ETag"

/-- The compress branch at the bottom of `gzipWriter.Write`: set the
compression headers on the first such write, delete `Content-Length`, and
write through the compressor. -/
def compressWrite (m : MState) (data : List Nat) : MState :=
  let m1 :=
    if m.headersSet then m
    else { m with resp := { m.resp with header := setCompressionHeaders m.resp.header },
                  headersSet := true }
  let m2 := { m1 with resp := { m1.resp with header := hdel m1.resp.header "Content-Length" } }
  gzWrite m2 data

/-- The body of `gzipWriter.Write` after the status sample: pass error
responses through with the compression headers removed; respect an upstream
`Content-Encoding` (passing through verbatim, and detecting already-gzipped
data by the magic bytes); otherwise compress. -/
def gzipWriterWriteCore (m : MState) (data : List Nat) : MState :=
  if 400 ≤ m.wstatus then
    underlyingWrite
      { m with resp := { m.resp with header := removeGzipHeaders m.resp.header } } data
  else
    let ce := hgetS m.resp.header "Content-Encoding"
    if ce ≠ "" then
      if ce = "gzip" then
        if startsWithGzipMagic data then underlyingWrite m data
        else compressWrite m data
      else underlyingWrite m data
    else compressWrite m data

/-- `gzipWriter.Write` (gzip.go): sample the status from the underlying
writer unless `WriteHeader` ran, then dispatch on it. -/
def gzipWriterWrite (m : MState) (data : List Nat) : MState :=
  gzipWriterWriteCore (if m.statusWritten then m else { m with wstatus := m.resp.status }) data

/-- `gzipWriter.WriteHeader` (gzip.go): record the status, mark it written,
delete `Content-Length`, and forward the status to the underlying writer. -/
def gzipWriterWriteHeader (m : MState) (code : Nat) : MState :=
  { m with wstatus := code, statusWritten := true,
           resp := { m.resp with
                     header := hdel m.resp.header "Content-Length",
                     status := code } }

/-- One call the downstream handler makes against the response writer:
a body write, an explicit header write, or a direct header mutation. -/
inductive HAction where
  | write (data : List Nat)
  | writeHeader (code : Nat)
  | headerSet (k v : String)
  | headerAdd (k v : String)

/-- Run one handler action against the wrapped (gzip) writer. -/
def mwStep (m : MState) : HAction → MState
  | .write d => gzipWriterWrite m d
  | .writeHeader c => gzipWriterWriteHeader m c
  | .headerSet k v =>
      { m with resp := { m.resp with header := hset m.resp.header k v } }
  | .headerAdd k v =>
      { m with resp := { m.resp with header := hadd m.resp.header k v } }

/-- Run one handler action against the plain, unwrapped gin writer. -/
def plainStep (r : Response) : HAction → Response
  | .write d => { r with body := r.body ++ d, bodyWritten := true }
  | .writeHeader c => { r with status := c }
  | .headerSet k v => { r with header := hset r.header k v }
  | .headerAdd k v => { r with header := hadd r.header k v }

/-- The response produced when the middleware leaves the writer untouched:
the downstream handler runs against the plain gin writer. -/
def runPlain (as : List HAction) : Response :=
  as.foldl plainStep { header := hempty, body := [], status := 200, bodyWritten := false }

/-- The state `gzipHandler.Handle` sets up before invoking the downstream
handler: compressor reset onto the underlying writer, then
`c.Header("Content-Encoding", "gzip")` and
`c.Header("Vary", "Accept-Encoding")` (gin's `Context.Header` is a `Set`). -/
def initialMState : MState :=
  { resp := { header := hset (hset hempty "Content-Encoding" "gzip") "Vary" "Accept-Encoding",
              body := [], status := 200, bodyWritten := false },
    gz := { destDiscard := false, wroteHeader := false, input := [], closed := false },
    statusWritten := false, wstatus := 0, headersSet := false,
    closedOnce := false, pooled := false }

/-- The deferred finalization in `gzipHandler.Handle`, in execution order:
if nothing reached the underlying writer (`Size() < 0`), reset the compressor
to `io.Discard` so no footer is emitted; close the compressor; if something
was written (`Size() > -1`), set `Content-Length` from the underlying size;
finally the outer defers reset the compressor to `io.Discard` and return it
to the pool. -/
def finalizeHandle (m : MState) : MState :=
  let m1 := if m.resp.bodyWritten then m else gzReset m true
  let m2 := gzClose m1
  let m3 :=
    if m2.resp.bodyWritten then
      { m2 with resp := { m2.resp with
          header := hset m2.resp.header "Content-Length" (toString m2.resp.body.length) } }
    else m2
  { gzReset m3 true with pooled := true }

/-- End-to-end response path of `gzipHandler.Handle` for one request:
when the decision engine rejects, the handler runs against the plain writer;
otherwise the writer is wrapped, the handler's calls are interpreted by the
decorator, and the deferred finalization runs.  (The request-decompression
phase, which only rewrites the inbound request, is modelled separately by
`handleRequestPhase`.) -/
def runGzipMWState (cfg : Config) (req : Request) (as : List HAction) : MState :=
  if handleShouldRun cfg req then finalizeHandle (as.foldl mwStep initialMState)
  else
    { resp := runPlain as,
      gz := { destDiscard := true, wroteHeader := false, input := [], closed := false },
      statusWritten := false, wstatus := 0, headersSet := false,
      closedOnce := false, pooled := false }

/-! ## The request-side decoder (`DefaultDecompressHandle`) -/

/-- Outcome of the request phase: the request as the downstream handler
would observe it, the recorded abort status (gin's `AbortWithError`, first
status wins since the header can be written only once), and whether the
downstream handler runs at all. -/
structure ReqResult where
  req : Request
  abortStatus : Option Nat
  handlerRan : Bool

/-- First abort wins: record `code` only when no abort happened yet. -/
def firstAbort (ab : Option Nat) (code : Nat) : Option Nat :=
  match ab with
  | none => some code
  | some x => some x

/-- The token loop of `DefaultDecompressHandle`: for each comma-separated
`Content-Encoding` token, skip empty tokens; flag a 415 abort on a non-gzip
token (the source does not return there); then wrap the body in one more
gzip reader, aborting 400 and returning early when the stream is malformed.
After the loop, `Content-Encoding` and `Content-Length` are deleted and
`c.Next()` runs the downstream handler unless an abort was flagged. -/
def decompressLoop : List String → List Nat → Request → Option Nat → ReqResult
  | [], b, req, ab =>
    let h := hdel (hdel req.header "Content-Encoding") "Content-Length"
    { req := { req with header := h, body := some b },
      abortStatus := ab, handlerRan := ab.isNone }
  | t :: ts, b, req, ab =>
    let tr := goTrim t
    if tr = "" then decompressLoop ts b req ab
    else
      let ab1 := if tr ≠ "gzip" then firstAbort ab 415 else ab
      match gzipDecompress b with
      | none =>
        { req := { req with body := some b },
          abortStatus := firstAbort ab1 400, handlerRan := false }
      | some p => decompressLoop ts p req ab1

/-- `DefaultDecompressHandle` (options file): no-op on a nil body; otherwise
split the lower-cased `Content-Encoding` on commas and run the token loop. -/
def defaultDecompressHandle (req : Request) : ReqResult :=
  match req.body with
  | none => { req := req, abortStatus := none, handlerRan := true }
  | some b =>
    let tokens := goSplitComma (goToLower (hgetS req.header "Content-Encoding"))
    if tokens.length = 0 then { req := req, abortStatus := none, handlerRan := true }
    else decompressLoop tokens b req none

/-- The request phase of `gzipHandler.Handle`: the configured decompression
function runs only when the request's `Content-Encoding` header equals
exactly `"gzip"`. -/
def handleRequestPhase (cfg : Config) (req : Request) : ReqResult :=
  if cfg.hasDefaultDecompress && hgetS req.header "Content-Encoding" == "gzip" then
    defaultDecompressHandle req
  else { req := req, abortStatus := none, handlerRan := true }

/-! ## Header map application lemmas -/

theorem hset_apply_same (h : HeaderF) (k v : String) : hset h k v k = [v] := by
  simp [hset]

theorem hset_apply_ne (h : HeaderF) (k v j : String) (hj : j ≠ k) :
    hset h k v j = h j := by
  simp [hset, hj]

theorem hadd_apply_same (h : HeaderF) (k v : String) : hadd h k v k = h k ++ [v] := by
  simp [hadd]

theorem hadd_apply_ne (h : HeaderF) (k v j : String) (hj : j ≠ k) :
    hadd h k v j = h j := by
  simp [hadd, hj]

theorem hdel_apply_same (h : HeaderF) (k : String) : hdel h k k = [] := by
  simp [hdel]

theorem hdel_apply_ne (h : HeaderF) (k j : String) (hj : j ≠ k) :
    hdel h k j = h j := by
  simp [hdel, hj]

theorem removeGzipHeaders_ce (h : HeaderF) :
    removeGzipHeaders h "Content-Encoding" = [] := by
  simp [removeGzipHeaders, hdel_apply_ne, hdel_apply_same]

theorem removeGzipHeaders_vary (h : HeaderF) :
    removeGzipHeaders h "Vary" = [] := by
  simp [removeGzipHeaders]
  rw [hdel_apply_ne _ _ _ (by decide), hdel_apply_same]

theorem removeGzipHeaders_idem (h : HeaderF) :
    removeGzipHeaders (removeGzipHeaders h) = removeGzipHeaders h := by
  funext j
  simp only [removeGzipHeaders, hdel]
  by_cases h1 : j = "ETag" <;> by_cases h2 : j = "Vary" <;>
    by_cases h3 : j = "Content-Encoding" <;> simp [h1, h2, h3]

end GinGzip

namespace GinGzip

/-! ## Shared concrete instances for witnesses and counterexamples -/

/-- The default configuration `Gzip(DefaultCompression)` builds:
only the default excluded extensions are set. -/
def cfgDefault : Config :=
  { excludedExtensions := [".png", ".gif", ".jpeg", ".jpg"],
    excludedPaths := [], excludedPathesRegexs := [],
    decompressOnly := false, customShouldCompressFn := none,
    hasDefaultDecompress := false }

/-- A plain request advertising `Accept-Encoding: gzip`. -/
def reqGz : Request :=
  { header := hset hempty "Accept-Encoding" "gzip", path := "/", body := none }

/-- A configuration with `WithExcludedPaths(["/api/"])`. -/
def cfgExcluded : Config :=
  { cfgDefault with excludedPaths := ["/api/"] }

/-- A gzip-accepting request for the excluded path `/api/books`. -/
def reqApi : Request :=
  { header := hset hempty "Accept-Encoding" "gzip", path := "/api/books", body := none }

/-! ## Helper lemmas about the response pipeline -/

theorem setCompressionHeaders_vary (h : HeaderF) :
    setCompressionHeaders h "Vary" = h "Vary" ++ ["Accept-Encoding"] := by
  simp only [setCompressionHeaders]
  split
  · rw [hset_apply_ne _ _ _ _ (by decide), hadd_apply_same,
      hset_apply_ne _ _ _ _ (by decide)]
  · rw [hadd_apply_same, hset_apply_ne _ _ _ _ (by decide)]

theorem gzWrite_resp_header (m : MState) (d : List Nat) :
    (gzWrite m d).resp.header = m.resp.header := by
  simp only [gzWrite, underlyingWrite]
  split <;> (try split) <;> rfl

theorem compressWrite_header_of_not_set (m : MState) (d : List Nat)
    (hhs : m.headersSet = false) :
    (compressWrite m d).resp.header =
      hdel (setCompressionHeaders m.resp.header) "Content-Length" := by
  simp [compressWrite, hhs, gzWrite_resp_header]

theorem compressWrite_vary (m : MState) (d : List Nat)
    (hhs : m.headersSet = false) :
    (compressWrite m d).resp.header "Vary" =
      m.resp.header "Vary" ++ ["Accept-Encoding"] := by
  rw [compressWrite_header_of_not_set m d hhs,
    hdel_apply_ne _ _ _ (by decide), setCompressionHeaders_vary]

theorem gzipWriterWriteCore_compress (m : MState) (d : List Nat)
    (hstat : m.wstatus < 400)
    (hce : hgetS m.resp.header "Content-Encoding" = "" ∨
           (hgetS m.resp.header "Content-Encoding" = "gzip" ∧
             startsWithGzipMagic d = false)) :
    gzipWriterWriteCore m d = compressWrite m d := by
  rw [gzipWriterWriteCore, if_neg (by omega)]
  rcases hce with hce | ⟨hce, hmagic⟩
  · rw [if_neg (by simp [hce])]
  · rw [if_pos (by simp [hce]), if_pos (by simp [hce]), if_neg (by simp [hmagic])]

/-- Claim C6 — when the decorator decides to compress (effective status below
400, no conflicting upstream `Content-Encoding`, headers not yet set), the
first body write appends `Accept-Encoding` to `Vary`, keeping every value
already present. -/
theorem compress_appends_vary (m : MState) (d : List Nat)
    (hstat : (if m.statusWritten then m.wstatus else m.resp.status) < 400)
    (hce : hgetS m.resp.header "Content-Encoding" = "" ∨
           (hgetS m.resp.header "Content-Encoding" = "gzip" ∧
             startsWithGzipMagic d = false))
    (hhs : m.headersSet = false) :
    (gzipWriterWrite m d).resp.header "Vary" =
      m.resp.header "Vary" ++ ["Accept-Encoding"] := by
  rw [gzipWriterWrite]
  cases hsw : m.statusWritten with
  | true =>
    rw [hsw] at hstat
    rw [if_pos rfl,
      gzipWriterWriteCore_compress m d (by simpa using hstat) hce,
      compressWrite_vary m d hhs]
  | false =>
    rw [hsw] at hstat
    rw [if_neg (by simp)]
    rw [gzipWriterWriteCore_compress _ d (by simpa using hstat) (by simpa using hce),
      compressWrite_vary _ d (by simpa using hhs)]

/-- Witness for C6 at a concrete state: the wrapped initial state already
carries `Vary: Accept-Encoding`, and the first compressing write appends
another `Accept-Encoding` value rather than replacing the list. -/
theorem compress_appends_vary_witness :
    (gzipWriterWrite initialMState [104]).resp.header "Vary" =
      initialMState.resp.header "Vary" ++ ["Accept-Encoding"] :=
  compress_appends_vary initialMState [104] (by decide) (by decide) (by decide)

theorem shouldCompress_false_of_excluded (cfg : Config) (req : Request)
    (hex : (excludedExtensionsContains cfg.excludedExtensions (filepathExt req.path)
        || excludedPathsContains cfg.excludedPaths req.path
        || excludedRegexsContains cfg.excludedPathesRegexs req.path) = true) :
    shouldCompress cfg req = false := by
  simp only [shouldCompress]
  split
  · rfl
  · simp [hex]

theorem handleShouldRun_false_of_not_shouldCompress (cfg : Config) (req : Request)
    (hc : cfg.customShouldCompressFn = none)
    (hsc : shouldCompress cfg req = false) :
    handleShouldRun cfg req = false := by
  simp [handleShouldRun, hc, hsc]

theorem runGzipMWState_skip (cfg : Config) (req : Request) (as : List HAction)
    (hrun : handleShouldRun cfg req = false) :
    (runGzipMWState cfg req as).resp = runPlain as := by
  simp [runGzipMWState, hrun]

/-- Claim C9 — with the built-in decision rules in effect (no custom
predicate), a request whose path has an excluded extension, starts with an
excluded prefix, or matches an excluded regular expression is never
compressed: the middleware leaves the writer untouched and the response is
exactly what the downstream handler produced against the plain writer,
whatever `Accept-Encoding` says. -/
theorem excluded_path_skips (cfg : Config) (req : Request) (as : List HAction)
    (hc : cfg.customShouldCompressFn = none)
    (hex : (excludedExtensionsContains cfg.excludedExtensions (filepathExt req.path)
        || excludedPathsContains cfg.excludedPaths req.path
        || excludedRegexsContains cfg.excludedPathesRegexs req.path) = true) :
    (runGzipMWState cfg req as).resp = runPlain as :=
  runGzipMWState_skip cfg req as
    (handleShouldRun_false_of_not_shouldCompress cfg req hc
      (shouldCompress_false_of_excluded cfg req hex))

/-- Witness for C9: the excluded prefix `/api/` skips compression for
`/api/books` even though the request advertises `Accept-Encoding: gzip`. -/
theorem excluded_path_skips_witness :
    (runGzipMWState cfgExcluded reqApi [HAction.write [104, 105]]).resp =
      runPlain [HAction.write [104, 105]] :=
  excluded_path_skips cfgExcluded reqApi [HAction.write [104, 105]] rfl (by decide)

/-- Claim C10 — once the layer applies compression headers, a strong `ETag`
already set downstream is rewritten to a weak validator by prefixing `W/`,
while an `ETag` that already carries the `W/` prefix is left unchanged. -/
theorem etag_weakened (h : HeaderF) :
    (hgetS h "ETag" ≠ "" → goHasPrefix (hgetS h "ETag") "W/" = false →
      hgetS (setCompressionHeaders h) "ETag" = "W/" ++ hgetS h "ETag")
    ∧ (goHasPrefix (hgetS h "ETag") "W/" = true →
      hgetS (setCompressionHeaders h) "ETag" = hgetS h "ETag") := by
  have he : hgetS (hadd (hset h "Content-Encoding" "gzip") "Vary" "Accept-Encoding") "ETag"
      = hgetS h "ETag" := by
    rw [hgetS, hadd_apply_ne _ _ _ _ (by decide), hset_apply_ne _ _ _ _ (by decide)]
    rfl
  constructor
  · intro h1 h2
    simp only [setCompressionHeaders, he]
    rw [if_pos (by simp [h1, h2]), hgetS, hset_apply_same]
    rfl
  · intro h1
    simp only [setCompressionHeaders, he]
    rw [if_neg (by simp [h1]), he]

/-- Witness for C10: a strong `ETag "abc"` is weakened to `W/"abc"` form,
and a weak `ETag` value `W/x` is preserved verbatim. -/
theorem etag_weakened_witness :
    hgetS (setCompressionHeaders (hset hempty "ETag" "abc")) "ETag" = "W/abc"
    ∧ hgetS (setCompressionHeaders (hset hempty "ETag" "W/x")) "ETag" = "W/x" :=
  ⟨(etag_weakened (hset hempty "ETag" "abc")).1 (by decide) (by decide),
   (etag_weakened (hset hempty "ETag" "W/x")).2 (by decide)⟩

/-- A custom predicate that always votes to compress. -/
def alwaysCompress : Request → Bool := fun _ => true

/-- The excluded-paths configuration with a custom predicate installed. -/
def cfgCustom : Config :=
  { cfgExcluded with customShouldCompressFn := some alwaysCompress }

/-- Claim C7 — with a custom eligibility predicate configured and combine
mode off, `Handle` returns the predicate's verdict as-is (the built-in
rules are never consulted); in combine mode (modelled from the spec, the
option's implementation not being among the source files) a negative vote
forces ineligibility while a positive vote is still subject to the
extension/path/regex exclusions. -/
theorem custom_predicate_decision :
    (∀ (cfg : Config) (req : Request) (f : Request → Bool),
        cfg.customShouldCompressFn = some f → cfg.decompressOnly = false →
        handleShouldRun cfg req = f req)
    ∧ (∀ (cfg : Config) (req : Request) (f : Request → Bool),
        f req = false → combinedShouldCompress cfg f req = false)
    ∧ (∀ (cfg : Config) (req : Request) (f : Request → Bool),
        (excludedExtensionsContains cfg.excludedExtensions (filepathExt req.path)
          || excludedPathsContains cfg.excludedPaths req.path
          || excludedRegexsContains cfg.excludedPathesRegexs req.path) = true →
        combinedShouldCompress cfg f req = false) := by
  refine ⟨fun cfg req f hc hdo => ?_, fun cfg req f hf => ?_, fun cfg req f hex => ?_⟩
  · simp [handleShouldRun, hc, hdo]
  · simp [combinedShouldCompress, hf]
  · simp [combinedShouldCompress, shouldCompress_false_of_excluded cfg req hex]

/-- Witness for C7, also exhibiting the asymmetry: combine off, the
always-true predicate bypasses the `/api/` exclusion; combine on, a negative
vote and the exclusion each force ineligibility. -/
theorem custom_predicate_decision_witness :
    handleShouldRun cfgCustom reqApi = alwaysCompress reqApi
    ∧ combinedShouldCompress cfgCustom (fun _ => false) reqApi = false
    ∧ combinedShouldCompress cfgCustom alwaysCompress reqApi = false :=
  ⟨custom_predicate_decision.1 cfgCustom reqApi alwaysCompress rfl rfl,
   custom_predicate_decision.2.1 cfgCustom reqApi (fun _ => false) rfl,
   custom_predicate_decision.2.2 cfgCustom reqApi alwaysCompress (by decide)⟩

/-- Modelled from the spec: the spec speaks of the `gzip` *token* of
`Accept-Encoding` — a comma-separated element with optional `;`-parameters,
whitespace-insensitive and case-insensitive.  This definition follows the
spec's words and exists only to compare the specified token semantics with
the code's substring test (`strings.Contains`). -/
def specHasGzipToken (s : String) : Bool :=
  ((goSplitComma s).map fun t =>
    goToLower (goTrim (String.mk (t.toList.takeWhile fun c => c != ';')))).contains "gzip"

/-- A request whose `Accept-Encoding` lacks any `gzip` token but contains
`gzip` as a substring. -/
def reqNotGzip : Request :=
  { header := hset hempty "Accept-Encoding" "notgzip", path := "/", body := none }

/-- Counterexample to claim C8 as stated: `Accept-Encoding: notgzip` has no
`gzip` token, yet the middleware (which tests for the substring) compresses
the response and sets `Content-Encoding: gzip`, so the body is not
byte-identical to what the handler wrote. -/
theorem gzip_token_substring_counterexample :
    specHasGzipToken "notgzip" = false
    ∧ (runGzipMWState cfgDefault reqNotGzip [HAction.write [104]]).resp.header
        "Content-Encoding" = ["gzip"]
    ∧ (runGzipMWState cfgDefault reqNotGzip [HAction.write [104]]).resp.body ≠ [104] :=
  ⟨by decide, by decide, by decide⟩

theorem shouldCompress_false_of_no_ae (cfg : Config) (req : Request)
    (hae : strContains (hgetS req.header "Accept-Encoding") "gzip" = false) :
    shouldCompress cfg req = false := by
  simp only [shouldCompress]
  rw [if_pos (by simp [hae])]

/-- Claim C8 (amended) — for a request whose `Accept-Encoding` value does
not contain the substring `gzip` (and no custom predicate is configured),
the middleware leaves the writer untouched: the response is exactly what the
downstream handler produces against the plain writer, so the body is
byte-identical and no `Content-Encoding`/`Vary` is set by this layer. -/
theorem no_gzip_substring_passthrough (cfg : Config) (req : Request)
    (as : List HAction)
    (hc : cfg.customShouldCompressFn = none)
    (hae : strContains (hgetS req.header "Accept-Encoding") "gzip" = false) :
    (runGzipMWState cfg req as).resp = runPlain as :=
  runGzipMWState_skip cfg req as
    (handleShouldRun_false_of_not_shouldCompress cfg req hc
      (shouldCompress_false_of_no_ae cfg req hae))

/-- A request advertising only `Accept-Encoding: br`. -/
def reqBr : Request :=
  { header := hset hempty "Accept-Encoding" "br", path := "/", body := none }

/-- Witness for C8 (amended) at `Accept-Encoding: br`. -/
theorem no_gzip_substring_passthrough_witness :
    (runGzipMWState cfgDefault reqBr [HAction.write [104, 105]]).resp =
      runPlain [HAction.write [104, 105]] :=
  no_gzip_substring_passthrough cfgDefault reqBr [HAction.write [104, 105]] rfl (by decide)

/-- The default configuration plus `WithDecompressFn(DefaultDecompressHandle)`. -/
def cfgDecomp : Config := { cfgDefault with hasDefaultDecompress := true }

/-- A request declaring the repeated chain `Content-Encoding: gzip, gzip`
with a correspondingly twice-compressed body. -/
def reqMulti : Request :=
  { header := hset hempty "Content-Encoding" "gzip, gzip", path := "/",
    body := some (gzipCompress (gzipCompress [104])) }

/-- A request declaring `Content-Encoding: deflate`. -/
def reqDeflate : Request :=
  { header := hset hempty "Content-Encoding" "deflate", path := "/",
    body := some [1, 2, 3] }

/-- Counterexample to claim C3 as stated: for the chain `gzip, gzip` the
middleware's guard (`Header.Get("Content-Encoding") == "gzip"`) never invokes
the decompression function, so the downstream handler runs with the still
twice-compressed body and the `Content-Encoding` header still present. -/
theorem multi_token_chain_counterexample :
    (handleRequestPhase cfgDecomp reqMulti).handlerRan = true
    ∧ (handleRequestPhase cfgDecomp reqMulti).req.header "Content-Encoding"
        = ["gzip, gzip"]
    ∧ (handleRequestPhase cfgDecomp reqMulti).req.body
        = some (gzipCompress (gzipCompress [104]))
    ∧ gzipCompress (gzipCompress [104]) ≠ [104] :=
  ⟨by decide, by decide, by decide, by decide⟩

/-- Claim C3 (amended) — when the decompression function is configured and
the request declares exactly the single token `gzip` (the only form the
middleware's guard passes on) with a one-layer gzip body, the downstream
handler observes exactly the original bytes, with `Content-Encoding` and
`Content-Length` removed from the request. -/
theorem decompress_single_gzip (cfg : Config) (h : HeaderF) (p : String)
    (B : List Nat)
    (hcfg : cfg.hasDefaultDecompress = true)
    (hce : hgetS h "Content-Encoding" = "gzip")
    (hB : B.length < 2 ^ 32) :
    (handleRequestPhase cfg { header := h, path := p, body := some (gzipCompress B) }).handlerRan = true
    ∧ (handleRequestPhase cfg { header := h, path := p, body := some (gzipCompress B) }).req.body = some B
    ∧ (handleRequestPhase cfg { header := h, path := p, body := some (gzipCompress B) }).req.header "Content-Encoding" = []
    ∧ (handleRequestPhase cfg { header := h, path := p, body := some (gzipCompress B) }).req.header "Content-Length" = [] := by
  have hrun : handleRequestPhase cfg { header := h, path := p, body := some (gzipCompress B) }
      = defaultDecompressHandle { header := h, path := p, body := some (gzipCompress B) } := by
    simp [handleRequestPhase, hcfg, hce]
  have hdd : defaultDecompressHandle { header := h, path := p, body := some (gzipCompress B) }
      = decompressLoop ["gzip"] (gzipCompress B)
          { header := h, path := p, body := some (gzipCompress B) } none := by
    show (let tokens := goSplitComma (goToLower (hgetS h "Content-Encoding"));
      if tokens.length = 0 then
        { req := { header := h, path := p, body := some (gzipCompress B) },
          abortStatus := none, handlerRan := true }
      else decompressLoop tokens (gzipCompress B)
        { header := h, path := p, body := some (gzipCompress B) } none) = _
    rw [hce, show goSplitComma (goToLower "gzip") = ["gzip"] from by decide]
    rfl
  have hloop : decompressLoop ["gzip"] (gzipCompress B)
      { header := h, path := p, body := some (gzipCompress B) } none
      = decompressLoop [] B { header := h, path := p, body := some (gzipCompress B) } none := by
    show (let tr := goTrim "gzip";
      if tr = "" then decompressLoop [] (gzipCompress B)
        { header := h, path := p, body := some (gzipCompress B) } none
      else
        let ab1 := if tr ≠ "gzip" then firstAbort none 415 else none
        match gzipDecompress (gzipCompress B) with
        | none =>
          { req := { header := h, path := p, body := some (gzipCompress B) },
            abortStatus := firstAbort ab1 400, handlerRan := false }
        | some q => decompressLoop [] q
            { header := h, path := p, body := some (gzipCompress B) } ab1) = _
    rw [show goTrim "gzip" = "gzip" from by decide]
    rw [gzipDecompress_gzipCompress B hB]
    simp
  rw [hrun, hdd, hloop]
  refine ⟨rfl, rfl, ?_, ?_⟩
  · show hdel (hdel h "Content-Encoding") "Content-Length" "Content-Encoding" = []
    rw [hdel_apply_ne _ _ _ (by decide), hdel_apply_same]
  · show hdel (hdel h "Content-Encoding") "Content-Length" "Content-Length" = []
    rw [hdel_apply_same]

/-- Witness for C3 (amended) at the payload `[104, 105]`. -/
theorem decompress_single_gzip_witness :
    (handleRequestPhase cfgDecomp
      { header := hset hempty "Content-Encoding" "gzip", path := "/",
        body := some (gzipCompress [104, 105]) }).handlerRan = true
    ∧ (handleRequestPhase cfgDecomp
      { header := hset hempty "Content-Encoding" "gzip", path := "/",
        body := some (gzipCompress [104, 105]) }).req.body = some [104, 105]
    ∧ (handleRequestPhase cfgDecomp
      { header := hset hempty "Content-Encoding" "gzip", path := "/",
        body := some (gzipCompress [104, 105]) }).req.header "Content-Encoding" = []
    ∧ (handleRequestPhase cfgDecomp
      { header := hset hempty "Content-Encoding" "gzip", path := "/",
        body := some (gzipCompress [104, 105]) }).req.header "Content-Length" = [] :=
  decompress_single_gzip cfgDecomp (hset hempty "Content-Encoding" "gzip") "/"
    [104, 105] rfl (by decide) (by decide)

/-- Counterexample to claim C4 as stated: with `Content-Encoding: deflate`
the middleware's guard skips the decompression function entirely, so nothing
fails — no 415, no abort — and the downstream handler executes with the
request untouched. -/
theorem non_gzip_token_counterexample :
    (handleRequestPhase cfgDecomp reqDeflate).handlerRan = true
    ∧ (handleRequestPhase cfgDecomp reqDeflate).abortStatus = none
    ∧ (handleRequestPhase cfgDecomp reqDeflate).req.header "Content-Encoding"
        = ["deflate"] :=
  ⟨by decide, by decide, by decide⟩

theorem firstAbort_isSome (ab : Option Nat) (code : Nat) :
    (firstAbort ab code).isSome = true := by
  cases ab <;> rfl

theorem decompressLoop_aborts (ts : List String) : ∀ (b : List Nat)
    (req : Request) (ab : Option Nat),
    ((∃ t ∈ ts, goTrim t ≠ "" ∧ goTrim t ≠ "gzip") ∨ ab.isSome = true) →
    (decompressLoop ts b req ab).abortStatus.isSome = true
    ∧ (decompressLoop ts b req ab).handlerRan = false := by
  induction ts with
  | nil =>
    intro b req ab hab
    rcases hab with ⟨t, ht, _⟩ | hab
    · exact absurd ht (List.not_mem_nil t)
    · cases ab with
      | none => simp at hab
      | some code => exact ⟨rfl, rfl⟩
  | cons t ts ih =>
    intro b req ab hab
    simp only [decompressLoop]
    by_cases htr : goTrim t = ""
    · rw [if_pos htr]
      apply ih
      rcases hab with ⟨u, hu, hne⟩ | hab
      · rcases List.mem_cons.mp hu with rfl | hu
        · exact absurd htr hne.1
        · exact Or.inl ⟨u, hu, hne⟩
      · exact Or.inr hab
    · rw [if_neg htr]
      by_cases hg : goTrim t = "gzip"
      · rw [if_neg (by simp [hg])]
        cases hdec : gzipDecompress b with
        | none => exact ⟨firstAbort_isSome ab 400, rfl⟩
        | some q =>
          apply ih
          rcases hab with ⟨u, hu, hne⟩ | hab
          · rcases List.mem_cons.mp hu with rfl | hu
            · exact absurd hg hne.2
            · exact Or.inl ⟨u, hu, hne⟩
          · exact Or.inr hab
      · rw [if_pos hg]
        cases hdec : gzipDecompress b with
        | none => exact ⟨firstAbort_isSome _ 400, rfl⟩
        | some q => exact ih q req (firstAbort ab 415) (Or.inr (firstAbort_isSome ab 415))

/-- Unfolding of `DefaultDecompressHandle` on a request with a body, once
the token list is known non-empty. -/
theorem defaultDecompressHandle_run (hh : HeaderF) (pp : String) (b : List Nat)
    (hnil : goSplitComma (goToLower (hgetS hh "Content-Encoding")) ≠ []) :
    defaultDecompressHandle { header := hh, path := pp, body := some b } =
      decompressLoop (goSplitComma (goToLower (hgetS hh "Content-Encoding"))) b
        { header := hh, path := pp, body := some b } none := by
  show (let tokens := goSplitComma (goToLower
      (hgetS ({ header := hh, path := pp, body := some b } : Request).header
        "Content-Encoding"));
    if tokens.length = 0 then
      { req := { header := hh, path := pp, body := some b },
        abortStatus := none, handlerRan := true }
    else decompressLoop tokens b { header := hh, path := pp, body := some b }
      none) = _
  rw [if_neg (by simpa [List.length_eq_zero] using hnil)]

/-- Claim C4 (amended) — when `DefaultDecompressHandle` itself runs on a
request with a body whose `Content-Encoding` chain contains a non-empty,
non-`gzip` token, the request ends aborted with a client error and the
downstream handler never executes (the loop does, however, keep examining
later tokens, and the middleware's own guard only invokes the decompressor
when the header equals exactly `gzip`). -/
theorem decompress_aborts_on_bad_token (req : Request) (b : List Nat)
    (hb : req.body = some b)
    (hoff : ∃ t ∈ goSplitComma (goToLower (hgetS req.header "Content-Encoding")),
        goTrim t ≠ "" ∧ goTrim t ≠ "gzip") :
    (defaultDecompressHandle req).abortStatus.isSome = true
    ∧ (defaultDecompressHandle req).handlerRan = false := by
  obtain ⟨t, ht, hne⟩ := hoff
  have hnil : goSplitComma (goToLower (hgetS req.header "Content-Encoding")) ≠ [] :=
    List.ne_nil_of_mem ht
  obtain ⟨hh, pp, bb⟩ := req
  replace hb : bb = some b := hb
  subst hb
  rw [defaultDecompressHandle_run hh pp b hnil]
  exact decompressLoop_aborts _ b _ none (Or.inl ⟨t, ht, hne⟩)

/-- Witness for C4 (amended) at `Content-Encoding: deflate`. -/
theorem decompress_aborts_on_bad_token_witness :
    (defaultDecompressHandle reqDeflate).abortStatus.isSome = true
    ∧ (defaultDecompressHandle reqDeflate).handlerRan = false :=
  decompress_aborts_on_bad_token reqDeflate [1, 2, 3] rfl
    ⟨"deflate", by decide, by decide, by decide⟩

/-! ## Helper lemmas for the full response pipeline -/

theorem hdel_eq_self (h : HeaderF) (k : String) (hk : h k = []) :
    hdel h k = h := by
  funext j
  by_cases hj : j = k
  · rw [hj, hdel_apply_same, hk]
  · rw [hdel_apply_ne _ _ _ hj]

theorem removeGzipHeaders_eq_self (h : HeaderF)
    (h1 : h "Content-Encoding" = []) (h2 : h "Vary" = []) (h3 : h "ETag" = []) :
    removeGzipHeaders h = h := by
  rw [removeGzipHeaders, hdel_eq_self _ _ h1, hdel_eq_self _ _ h2, hdel_eq_self _ _ h3]

theorem setCompressionHeaders_ce (h : HeaderF) :
    setCompressionHeaders h "Content-Encoding" = ["gzip"] := by
  simp only [setCompressionHeaders]
  split
  · rw [hset_apply_ne _ _ _ _ (by decide), hadd_apply_ne _ _ _ _ (by decide),
      hset_apply_same]
  · rw [hadd_apply_ne _ _ _ _ (by decide), hset_apply_same]

theorem gzipWriterWrite_error (m : MState) (d : List Nat)
    (hsw : m.statusWritten = true) (hst : 400 ≤ m.wstatus) :
    gzipWriterWrite m d = underlyingWrite
      { m with resp := { m.resp with header := removeGzipHeaders m.resp.header } } d := by
  rw [gzipWriterWrite, if_pos hsw, gzipWriterWriteCore, if_pos hst]

theorem gzipWriterWrite_pass_gzip (m : MState) (d : List Nat)
    (hsw : m.statusWritten = false) (hst : m.resp.status < 400)
    (hce : hgetS m.resp.header "Content-Encoding" = "gzip")
    (hm : startsWithGzipMagic d = true) :
    gzipWriterWrite m d = underlyingWrite { m with wstatus := m.resp.status } d := by
  rw [gzipWriterWrite, if_neg (by simp [hsw]), gzipWriterWriteCore]
  rw [if_neg (by simp; omega)]
  rw [if_pos (by simp [hce]), if_pos (by simp [hce]), if_pos hm]

theorem finalizeHandle_written (m : MState)
    (hbw : m.resp.bodyWritten = true) (hdd : m.gz.destDiscard = false) :
    finalizeHandle m =
      { resp := { header := hset m.resp.header "Content-Length" (toString (m.resp.body ++ ((if m.gz.wroteHeader then [] else gzHeaderBytes) ++ deflateStored m.gz.input ++ gzFooterBytes m.gz.input)).length),
                  body := m.resp.body ++ ((if m.gz.wroteHeader then [] else gzHeaderBytes) ++ deflateStored m.gz.input ++ gzFooterBytes m.gz.input),
                  status := m.resp.status, bodyWritten := true },
        gz := { destDiscard := true, wroteHeader := false, input := [], closed := false },
        statusWritten := m.statusWritten, wstatus := m.wstatus,
        headersSet := m.headersSet, closedOnce := true, pooled := true } := by
  simp [finalizeHandle, gzClose, gzReset, underlyingWrite, hbw, hdd]

theorem finalizeHandle_unwritten (m : MState)
    (hbw : m.resp.bodyWritten = false) :
    finalizeHandle m =
      { resp := m.resp,
        gz := { destDiscard := true, wroteHeader := false, input := [], closed := false },
        statusWritten := m.statusWritten, wstatus := m.wstatus,
        headersSet := m.headersSet, closedOnce := true, pooled := true } := by
  simp [finalizeHandle, gzClose, gzReset, underlyingWrite, hbw]

/-- After the first error-status write has retracted the compression headers,
every further handler write is appended verbatim to the underlying body and
nothing else changes. -/
theorem foldl_error_steady (ds : List (List Nat)) : ∀ m : MState,
    m.statusWritten = true → 400 ≤ m.wstatus →
    m.resp.header "Content-Encoding" = [] → m.resp.header "Vary" = [] →
    m.resp.header "ETag" = [] →
    (ds.map HAction.write).foldl mwStep m =
      { m with resp := { m.resp with
                         body := m.resp.body ++ ds.flatten,
                         bodyWritten := m.resp.bodyWritten || !ds.isEmpty } } := by
  induction ds with
  | nil =>
    intro m _ _ _ _ _
    simp
  | cons d ds ih =>
    intro m hsw hst h1 h2 h3
    have hstep : mwStep m (HAction.write d) =
        { m with resp := { m.resp with body := m.resp.body ++ d, bodyWritten := true } } := by
      show gzipWriterWrite m d = _
      rw [gzipWriterWrite_error m d hsw hst, removeGzipHeaders_eq_self _ h1 h2 h3]
      rfl
    rw [List.map_cons, List.foldl_cons, hstep,
      ih { m with resp := { m.resp with body := m.resp.body ++ d, bodyWritten := true } }
        hsw hst h1 h2 h3]
    simp [List.append_assoc]

/-- In the steady compressing state (status still 200, compression headers
set, gzip stream header already emitted), each non-magic handler write only
appends to the compressor's input. -/
theorem foldl_compress_steady (ds : List (List Nat)) : ∀ m : MState,
    (∀ x ∈ ds, startsWithGzipMagic x = false) →
    m.statusWritten = false → m.resp.status = 200 → m.wstatus = 200 →
    hgetS m.resp.header "Content-Encoding" = "gzip" →
    m.resp.header "Content-Length" = [] →
    m.headersSet = true → m.gz.wroteHeader = true →
    (ds.map HAction.write).foldl mwStep m =
      { m with gz := { m.gz with input := m.gz.input ++ ds.flatten } } := by
  induction ds with
  | nil =>
    intro m _ _ _ _ _ _ _ _
    simp
  | cons d ds ih =>
    intro m hmag hsw hst hws hce hcl hhs hwh
    have hm0 : ({ m with wstatus := m.resp.status } : MState) = m := by
      rw [hst, ← hws]
    have hstep : mwStep m (HAction.write d) =
        { m with gz := { m.gz with input := m.gz.input ++ d } } := by
      show gzipWriterWrite m d = _
      rw [gzipWriterWrite, if_neg (by simp [hsw]), hm0,
        gzipWriterWriteCore_compress m d (by omega)
          (Or.inr ⟨hce, hmag d (List.mem_cons_self d ds)⟩)]
      simp [compressWrite, hhs, hdel_eq_self _ _ hcl, gzWrite, hwh]
    rw [List.map_cons, List.foldl_cons, hstep,
      ih { m with gz := { m.gz with input := m.gz.input ++ d } }
        (fun x hx => hmag x (List.mem_cons_of_mem d hx)) hsw hst hws hce hcl hhs hwh]
    simp [List.append_assoc]

theorem removeGzipHeaders_etag (h : HeaderF) :
    removeGzipHeaders h "ETag" = [] := by
  rw [removeGzipHeaders, hdel_apply_same]

/-- Counterexample to claim C1 as stated: a handler that sets a final 500
status without writing any body byte (for example `AbortWithStatus(500)`)
leaves the middleware's provisional `Content-Encoding: gzip` and
`Vary: Accept-Encoding` headers on the delivered error response, because the
retraction only happens inside `Write`. -/
theorem error_status_headers_counterexample :
    (runGzipMWState cfgDefault reqGz [HAction.writeHeader 500]).resp.status = 500
    ∧ (runGzipMWState cfgDefault reqGz [HAction.writeHeader 500]).resp.header
        "Content-Encoding" = ["gzip"]
    ∧ (runGzipMWState cfgDefault reqGz [HAction.writeHeader 500]).resp.header
        "Vary" = ["Accept-Encoding"] :=
  ⟨by decide, by decide, by decide⟩

/-- The decorator state after the handler has set error status `e` and all
its writes (total payload `b`) have been passed through with the compression
headers retracted. -/
def errSteady (e : Nat) (b : List Nat) : MState :=
  { resp := { header := removeGzipHeaders (hdel initialMState.resp.header "Content-Length"),
              body := b, status := e, bodyWritten := true },
    gz := { destDiscard := false, wroteHeader := false, input := [], closed := false },
    statusWritten := true, wstatus := e, headersSet := false,
    closedOnce := false, pooled := false }

/-- Claim C1 (amended) — when the downstream handler sets a final error
status (>= 400) before writing and then writes at least one body chunk, the
delivered response carries no `Content-Encoding` and no `Vary` header, and
every byte the handler wrote is forwarded uncompressed; the only additional
bytes are the fixed empty-gzip trailer the pooled compressor emits when it
is closed unused. -/
theorem error_status_passthrough (e : Nat) (he : 400 ≤ e) (d : List Nat)
    (ds : List (List Nat)) :
    (runGzipMWState cfgDefault reqGz
        (HAction.writeHeader e :: HAction.write d :: ds.map HAction.write)).resp.header
      "Content-Encoding" = []
    ∧ (runGzipMWState cfgDefault reqGz
        (HAction.writeHeader e :: HAction.write d :: ds.map HAction.write)).resp.header
      "Vary" = []
    ∧ (runGzipMWState cfgDefault reqGz
        (HAction.writeHeader e :: HAction.write d :: ds.map HAction.write)).resp.body
      = (d ++ ds.flatten) ++ gzipCompress []
    ∧ (runGzipMWState cfgDefault reqGz
        (HAction.writeHeader e :: HAction.write d :: ds.map HAction.write)).resp.status
      = e := by
  have hrun : handleShouldRun cfgDefault reqGz = true := by decide
  have hstep2 : mwStep (mwStep initialMState (HAction.writeHeader e)) (HAction.write d)
      = errSteady e d := by
    show gzipWriterWrite _ d = _
    rw [gzipWriterWrite_error _ d rfl he]
    rfl
  have hfold2 : (ds.map HAction.write).foldl mwStep (errSteady e d)
      = errSteady e (d ++ ds.flatten) := by
    rw [foldl_error_steady ds (errSteady e d) rfl he
      (removeGzipHeaders_ce (hdel initialMState.resp.header "Content-Length"))
      (removeGzipHeaders_vary (hdel initialMState.resp.header "Content-Length"))
      (removeGzipHeaders_etag (hdel initialMState.resp.header "Content-Length"))]
    rfl
  rw [runGzipMWState, if_pos hrun, List.foldl_cons, List.foldl_cons, hstep2, hfold2,
    finalizeHandle_written (errSteady e (d ++ ds.flatten)) rfl rfl]
  refine ⟨?_, ?_, rfl, rfl⟩
  · simp [errSteady, hset_apply_ne, removeGzipHeaders_ce]
  · simp [errSteady, hset_apply_ne, removeGzipHeaders_vary]

/-- Witness for C1 (amended): a handler that sets 404 and then writes one
byte gets an uncompressed pass-through with the compression headers gone. -/
theorem error_status_passthrough_witness :
    (runGzipMWState cfgDefault reqGz
        [HAction.writeHeader 404, HAction.write [110]]).resp.header
      "Content-Encoding" = []
    ∧ (runGzipMWState cfgDefault reqGz
        [HAction.writeHeader 404, HAction.write [110]]).resp.header "Vary" = []
    ∧ (runGzipMWState cfgDefault reqGz
        [HAction.writeHeader 404, HAction.write [110]]).resp.body
      = ([110] ++ List.flatten []) ++ gzipCompress []
    ∧ (runGzipMWState cfgDefault reqGz
        [HAction.writeHeader 404, HAction.write [110]]).resp.status = 404 :=
  error_status_passthrough 404 (by decide) [110] []

/-- The decorator state after an upstream-compressed body was passed
through verbatim. -/
def upstreamState (orig : List Nat) : MState :=
  { resp := { header := hset initialMState.resp.header "Content-Encoding" "gzip",
              body := gzipCompress orig, status := 200, bodyWritten := true },
    gz := { destDiscard := false, wroteHeader := false, input := [], closed := false },
    statusWritten := false, wstatus := 200, headersSet := false,
    closedOnce := false, pooled := false }

/-- Counterexample to claim C2 as stated: the magic-byte check runs on
every `Write` call separately, so when the handler delivers its
already-gzipped body in two chunks, the first (magic-prefixed) chunk is
passed through but the second chunk is compressed again; the client-visible
byte stream is a truncated gzip stream followed by a fresh one and no longer
gzip-decodes to the handler's original bytes at all. -/
theorem chunked_upstream_gzip_counterexample :
    (runGzipMWState cfgDefault reqGz
        [HAction.headerSet "Content-Encoding" "gzip",
         HAction.write ((gzipCompress [104, 105]).take 12),
         HAction.write ((gzipCompress [104, 105]).drop 12)]).resp.body
      = (gzipCompress [104, 105]).take 12
        ++ gzipCompress ((gzipCompress [104, 105]).drop 12)
    ∧ gzipDecodeAll ((runGzipMWState cfgDefault reqGz
        [HAction.headerSet "Content-Encoding" "gzip",
         HAction.write ((gzipCompress [104, 105]).take 12),
         HAction.write ((gzipCompress [104, 105]).drop 12)]).resp.body) = none
    ∧ startsWithGzipMagic ((gzipCompress [104, 105]).take 12) = true :=
  ⟨by decide, by decide, by decide⟩

/-- Claim C2 (amended) — when the downstream handler has already set
`Content-Encoding: gzip` and delivers its body in a single write starting
with the gzip magic bytes, the decorator forwards the bytes verbatim instead
of compressing them again, and the client-visible byte stream gzip-decodes
(multistream, as `gzip.Reader` does) to exactly the handler's original
payload — one layer, never two.  (Writes not starting with the magic bytes
are re-compressed even under `Content-Encoding: gzip`, so chunked
pre-compressed bodies are corrupted; see the counterexample.) -/
theorem upstream_gzip_passthrough (orig : List Nat) (h : orig.length < 2 ^ 32) :
    (runGzipMWState cfgDefault reqGz
        [HAction.headerSet "Content-Encoding" "gzip",
         HAction.write (gzipCompress orig)]).resp.body
      = gzipCompress orig ++ gzipCompress []
    ∧ gzipDecodeAll ((runGzipMWState cfgDefault reqGz
        [HAction.headerSet "Content-Encoding" "gzip",
         HAction.write (gzipCompress orig)]).resp.body) = some orig
    ∧ (runGzipMWState cfgDefault reqGz
        [HAction.headerSet "Content-Encoding" "gzip",
         HAction.write (gzipCompress orig)]).resp.header "Content-Encoding"
      = ["gzip"] := by
  have hrun : handleShouldRun cfgDefault reqGz = true := by decide
  have hfold : ([HAction.headerSet "Content-Encoding" "gzip",
      HAction.write (gzipCompress orig)] : List HAction).foldl mwStep initialMState
      = upstreamState orig := by
    rw [List.foldl_cons, List.foldl_cons, List.foldl_nil]
    show gzipWriterWrite _ (gzipCompress orig) = _
    rw [gzipWriterWrite_pass_gzip _ _ rfl (by decide) (by decide)
      (startsWithGzipMagic_gzipCompress orig)]
    rfl
  have hb : (runGzipMWState cfgDefault reqGz
      [HAction.headerSet "Content-Encoding" "gzip",
       HAction.write (gzipCompress orig)]).resp.body
      = gzipCompress orig ++ gzipCompress [] := by
    rw [runGzipMWState, if_pos hrun, hfold,
      finalizeHandle_written (upstreamState orig) rfl rfl]
    rfl
  refine ⟨hb, ?_, ?_⟩
  · rw [hb]
    exact gzipDecodeAll_one_then_empty orig h
  · rw [runGzipMWState, if_pos hrun, hfold,
      finalizeHandle_written (upstreamState orig) rfl rfl]
    simp [upstreamState, hset_apply_ne, hset_apply_same]

/-- Witness for C2 at the upstream payload `[104, 105]`. -/
theorem upstream_gzip_passthrough_witness :
    (runGzipMWState cfgDefault reqGz
        [HAction.headerSet "Content-Encoding" "gzip",
         HAction.write (gzipCompress [104, 105])]).resp.body
      = gzipCompress [104, 105] ++ gzipCompress []
    ∧ gzipDecodeAll ((runGzipMWState cfgDefault reqGz
        [HAction.headerSet "Content-Encoding" "gzip",
         HAction.write (gzipCompress [104, 105])]).resp.body) = some [104, 105]
    ∧ (runGzipMWState cfgDefault reqGz
        [HAction.headerSet "Content-Encoding" "gzip",
         HAction.write (gzipCompress [104, 105])]).resp.header "Content-Encoding"
      = ["gzip"] :=
  upstream_gzip_passthrough [104, 105] (by decide)

/-- Counterexample to claim C5 as stated: a handler performing a single
`Write` call with zero body bytes wrote no body bytes, yet the response body
receives a complete empty gzip stream (header and footer) and a
`Content-Length` header is set — because the `Size() < 0` guard only detects
the absence of `Write` calls (the gzip stream header alone makes the size
non-negative). -/
theorem empty_write_footer_counterexample :
    (runGzipMWState cfgDefault reqGz [HAction.write []]).resp.body = gzipCompress []
    ∧ gzipCompress [] ≠ []
    ∧ (runGzipMWState cfgDefault reqGz [HAction.write []]).resp.header "Content-Length"
      = [toString (gzipCompress []).length] :=
  ⟨by decide, by decide, by decide⟩

/-- The decorator state while compressing: headers applied, gzip stream
header already on the wire, accumulated compressor input `inp`. -/
def compressingState (inp : List Nat) : MState :=
  { resp := { header := hdel (setCompressionHeaders initialMState.resp.header) "Content-Length",
              body := gzHeaderBytes, status := 200, bodyWritten := true },
    gz := { destDiscard := false, wroteHeader := true, input := inp, closed := false },
    statusWritten := false, wstatus := 200, headersSet := true,
    closedOnce := false, pooled := false }

/-- Claim C5 (amended) — at response completion while compressing: if the
handler made at least one `Write` call (no chunk carrying the gzip magic),
the compressor is closed and `Content-Length` is set to the exact number of
compressed bytes on the wire, the body being one gzip stream over the
concatenated chunks; if the handler made no `Write` call, the body stays
empty and no `Content-Length` is fabricated; in both terminal states the
borrowed compressor ends reset onto the discard sink and returned to the
pool. -/
theorem finalize_content_length :
    (∀ (d : List Nat) (ds : List (List Nat)),
      startsWithGzipMagic d = false →
      (∀ x ∈ ds, startsWithGzipMagic x = false) →
      (runGzipMWState cfgDefault reqGz ((d :: ds).map HAction.write)).resp.body
        = gzipCompress ((d :: ds).flatten)
      ∧ (runGzipMWState cfgDefault reqGz ((d :: ds).map HAction.write)).resp.header
          "Content-Length"
        = [toString (gzipCompress ((d :: ds).flatten)).length]
      ∧ (runGzipMWState cfgDefault reqGz ((d :: ds).map HAction.write)).closedOnce = true
      ∧ (runGzipMWState cfgDefault reqGz ((d :: ds).map HAction.write)).gz.destDiscard = true
      ∧ (runGzipMWState cfgDefault reqGz ((d :: ds).map HAction.write)).pooled = true)
    ∧ ((runGzipMWState cfgDefault reqGz []).resp.body = []
      ∧ (runGzipMWState cfgDefault reqGz []).resp.header "Content-Length" = []
      ∧ (runGzipMWState cfgDefault reqGz []).gz.destDiscard = true
      ∧ (runGzipMWState cfgDefault reqGz []).pooled = true) := by
  constructor
  · intro d ds hd hds
    have hrun : handleShouldRun cfgDefault reqGz = true := by decide
    have hstep1 : mwStep initialMState (HAction.write d) = compressingState d := by
      show gzipWriterWrite initialMState d = _
      rw [gzipWriterWrite, if_neg (by decide),
        gzipWriterWriteCore_compress _ d (by decide) (Or.inr ⟨by decide, hd⟩)]
      rfl
    have hce : hgetS (compressingState d).resp.header "Content-Encoding" = "gzip" := by
      show hgetS (hdel (setCompressionHeaders initialMState.resp.header)
        "Content-Length") "Content-Encoding" = "gzip"
      decide
    have hcl : (compressingState d).resp.header "Content-Length" = [] := by
      show hdel (setCompressionHeaders initialMState.resp.header)
        "Content-Length" "Content-Length" = []
      decide
    have hfold : (ds.map HAction.write).foldl mwStep (compressingState d)
        = compressingState (d ++ ds.flatten) := by
      rw [foldl_compress_steady ds (compressingState d) hds rfl rfl rfl hce hcl rfl rfl]
      rfl
    rw [List.map_cons, runGzipMWState, if_pos hrun, List.foldl_cons, hstep1, hfold,
      finalizeHandle_written (compressingState (d ++ ds.flatten)) rfl rfl]
    refine ⟨?_, ?_, rfl, rfl, rfl⟩
    · simp [compressingState, gzipCompress, List.append_assoc]
    · simp [compressingState, hset_apply_same, gzipCompress, List.append_assoc]
  · exact ⟨by decide, by decide, by decide, by decide⟩

/-- Witness for C5 (amended) at the single chunk `[104]`. -/
theorem finalize_content_length_witness :
    (runGzipMWState cfgDefault reqGz (([104] :: []).map HAction.write)).resp.body
      = gzipCompress (([104] :: []).flatten)
    ∧ (runGzipMWState cfgDefault reqGz (([104] :: []).map HAction.write)).resp.header
        "Content-Length"
      = [toString (gzipCompress (([104] :: []).flatten)).length]
    ∧ (runGzipMWState cfgDefault reqGz (([104] :: []).map HAction.write)).closedOnce = true
    ∧ (runGzipMWState cfgDefault reqGz (([104] :: []).map HAction.write)).gz.destDiscard = true
    ∧ (runGzipMWState cfgDefault reqGz (([104] :: []).map HAction.write)).pooled = true :=
  finalize_content_length.1 [104] [] (by decide) (by decide)

end GinGzip
